import Mathlib

/-!
Shallow embedding of the branch-classification and repository-scan core of
repodoctor2, from src/github_client.py: the pure classifier
`GitHubClient.classify_branch` and the per-repository aggregator `scan_repo`.

Modelling conventions:
- Machine time is whole seconds (`Int`).  The instant that
  `datetime.datetime.now(datetime.timezone.utc)` reads inside
  `classify_branch` is passed explicitly as the `now` argument.
- An ISO-8601 timestamp string is a `DateStr`: the raw string paired with
  the result of `datetime.datetime.fromisoformat(raw.replace("Z", "+00:00"))`
  on it - `none` when that call raises `ValueError`/`TypeError`, `some t`
  (seconds since the epoch) when it parses.  `(now - last_dt).days` is then
  `(now - t).fdiv 86400`: Python's `timedelta.days` floors.
- The network collaborators of `scan_repo` (`get_branches`, `get_pulls`,
  `compare_branches`, `check_claude_md`) are passed in as data: the branch
  list, the open pull requests' head refs, a function from head-branch name
  to the comparison payload (`none` models a failed fetch, i.e.
  `compare_branches` returning `None`), and the CLAUDE.md flag.
- A commit's `committer.date` is modelled as always present, as the code
  indexes `last_commit["commit"]["committer"]["date"]` unconditionally;
  `commit.author` stays optional (`.get("author")`).
-/

namespace RepoDoctor

/-- An ISO-8601 timestamp string together with what Python's
`datetime.datetime.fromisoformat` (after the `Z` to `+00:00` rewrite) yields
on it: `none` for an unparsable string, `some t` (seconds) otherwise. -/
structure DateStr where
  raw : String
  parsed : Option Int
deriving DecidableEq

/-- One element of a comparison's `commits` array: the fields the scan
reads.  `author_name?` is `commit.author.name` when `commit.get("author")`
is truthy, `none` otherwise; `committer_date` is `commit.committer.date`. -/
structure CommitInfo where
  sha : String
  message : String
  author_name? : Option String
  committer_date : DateStr
deriving DecidableEq

/-- One element of a comparison's `files` array (the keys `scan_repo`
copies). -/
structure FileChange where
  filename : String
  additions : Int
  deletions : Int
  status : String
deriving DecidableEq

/-- One element of the branch-listing collaborator's result: `name` and
`commit.sha`. -/
structure Branch where
  name : String
  commit_sha : String
deriving DecidableEq

/-- The comparison payload `compare_branches` returns.  `ahead_by?` and
`behind_by?` are `Option` because `classify_branch` and `scan_repo` read
them with `comparison.get("ahead_by", 0)` / `comparison.get("behind_by", 0)`:
a missing key defaults to 0. -/
structure Comparison where
  ahead_by? : Option Int
  behind_by? : Option Int
  commits : List CommitInfo
  files : List FileChange
deriving DecidableEq

/-- The inner staleness test of `classify_branch`: Python's
`if last_commit_date:` guard (false on `None` and on the empty string),
the guarded parse, and `(now - last_dt).days > 30 and ahead > 0`.  A parse
failure is caught (`except (ValueError, TypeError): pass`), so it simply
yields `false`. -/
def stale_signal (last_commit_date : Option DateStr) (ahead now : Int) : Bool :=
  match last_commit_date with
  | none => false
  | some d =>
    if d.raw = "" then false
    else
      match d.parsed with
      | none => false
      | some t => decide ((now - t).fdiv 86400 > 30 ∧ ahead > 0)

/-- `GitHubClient.classify_branch`, src/github_client.py lines 160-187.
The current UTC instant it reads via `datetime.datetime.now` is the explicit
`now` argument. -/
def classify_branch (comparison : Comparison) (last_commit_date : Option DateStr)
    (has_pr : Bool) (now : Int) : String :=
  let ahead : Int := comparison.ahead_by?.getD 0
  let behind : Int := comparison.behind_by?.getD 0
  if has_pr then "ACTIVE PR"
  else if ahead = 0 then "SAFE TO DELETE"
  else if stale_signal last_commit_date ahead now then "STALE"
  else if ahead > 0 ∧ behind > 0 then "DIVERGED"
  else if ahead > 0 ∧ behind = 0 then "AHEAD ONLY"
  else "AHEAD ONLY"

/-- The fixed ordering key of `scan_repo`:
`sort_order = {"DIVERGED": 0, "AHEAD ONLY": 1, "STALE": 2,
"SAFE TO DELETE": 3, "ACTIVE PR": 4}` read with `.get(classification, 5)`. -/
def sort_order (c : String) : Nat :=
  if c = "DIVERGED" then 0
  else if c = "AHEAD ONLY" then 1
  else if c = "STALE" then 2
  else if c = "SAFE TO DELETE" then 3
  else if c = "ACTIVE PR" then 4
  else 5

/-- One element of a branch record's `commit_messages` list: the 7-character
sha prefix, the first line of the commit message, the author name (defaulted
to "Unknown"), and the committer date. -/
structure CommitMsg where
  sha : String
  message : String
  author : String
  date : Option DateStr
deriving DecidableEq

/-- One record of `scan_repo`'s `branch_data` list (the dict built in
src/github_client.py lines 240-251). -/
structure BranchRecord where
  name : String
  classification : String
  ahead_by : Int
  behind_by : Int
  last_commit_date : Option DateStr
  last_commit_author : Option String
  has_pr : Bool
  commit_sha : String
  files_changed : List FileChange
  commit_messages : List CommitMsg
deriving DecidableEq

/-- The comparison relation `scan_repo`'s stable sort uses: ordering of the
`sort_order` keys of the two records' classifications. -/
def branch_le (b₁ b₂ : BranchRecord) : Prop :=
  sort_order b₁.classification ≤ sort_order b₂.classification

instance : DecidableRel branch_le := fun _ _ => Nat.decLe _ _

instance : IsTotal BranchRecord branch_le := ⟨fun _ _ => Nat.le_total _ _⟩

instance : IsTrans BranchRecord branch_le := ⟨fun _ _ _ h₁ h₂ => Nat.le_trans h₁ h₂⟩

/-- The inputs one call of `scan_repo` consumes: the `repo` dict fields it
reads (those read with `.get` carry their `Option`), together with the data
its collaborators return for this repository.  `compare` maps a head-branch
name to `compare_branches(owner, name, default_branch, head)`: `none` is a
failed fetch.  `now` is the UTC instant the contained `classify_branch`
calls observe. -/
structure RepoInput where
  owner : String
  name : String
  full_name : String
  default_branch? : Option String
  is_private? : Option Bool
  html_url? : Option String
  description? : Option String
  updated_at? : Option String
  branches : List Branch
  pr_head_refs : List String
  compare : String → Option Comparison
  has_claude_md : Bool
  now : Int

/-- The dict `scan_repo` returns. -/
structure ScanResult where
  owner : String
  name : String
  full_name : String
  default_branch : String
  is_private : Bool
  html_url : String
  description : String
  updated_at : String
  branches : List BranchRecord
  branch_count : Nat
  has_claude_md : Bool

/-- The body of `scan_repo`'s per-branch loop after a successful comparison
fetch: derive `last_commit_date`/`last_commit_author` from the last element
of the comparison's commit list (both `None` when that list is empty or
missing), classify, and build the record. -/
def mk_branch_record (ri : RepoInput) (b : Branch) (cmp : Comparison) : BranchRecord :=
  let last_commit : Option CommitInfo := cmp.commits.getLast?
  let last_commit_date : Option DateStr := last_commit.map fun lc => lc.committer_date
  let last_commit_author : Option String :=
    last_commit.map fun lc => lc.author_name?.getD "Unknown"
  let has_pr : Bool := ri.pr_head_refs.contains b.name
  ⟨b.name,
   classify_branch cmp last_commit_date has_pr ri.now,
   cmp.ahead_by?.getD 0,
   cmp.behind_by?.getD 0,
   last_commit_date,
   last_commit_author,
   has_pr,
   b.commit_sha,
   cmp.files.map fun f => ⟨f.filename, f.additions, f.deletions, f.status⟩,
   cmp.commits.map fun c =>
     ⟨c.sha.take 7, (c.message.splitOn "\n").headD "",
      c.author_name?.getD "Unknown", some c.committer_date⟩⟩

/-- The per-branch loop of `scan_repo` over the branch listing: the default
branch is skipped (`continue`), a failed comparison fetch is skipped
(`continue`), and every other branch contributes one record, in listing
order. -/
def scan_branches (ri : RepoInput) (db : String) : List Branch → List BranchRecord
  | [] => []
  | b :: rest =>
    if b.name = db then scan_branches ri db rest
    else
      match ri.compare b.name with
      | none => scan_branches ri db rest
      | some cmp => mk_branch_record ri b cmp :: scan_branches ri db rest

/-- `scan_repo`, src/github_client.py lines 190-274: build one record per
surviving branch, sort the records by the fixed classification key
(`list.sort` is stable, modelled by `List.insertionSort`), and assemble the
result with `branch_count = len(branch_data)`. -/
def scan_repo (ri : RepoInput) : ScanResult :=
  let db := ri.default_branch?.getD "main"
  let branch_data := scan_branches ri db ri.branches
  let sorted := branch_data.insertionSort branch_le
  ⟨ri.owner, ri.name, ri.full_name, db,
   ri.is_private?.getD false, ri.html_url?.getD "",
   ri.description?.getD "", ri.updated_at?.getD "",
   sorted, sorted.length, ri.has_claude_md⟩

/-- Unfolding lemma: the branches field of a scan result is the stable sort
of the loop's record list. -/
theorem scan_repo_branches_def (ri : RepoInput) :
    (scan_repo ri).branches
      = (scan_branches ri (ri.default_branch?.getD "main") ri.branches).insertionSort
          branch_le := rfl

/-- Unfolding lemma: the default branch of a scan result is
`repo.get("default_branch", "main")`. -/
theorem scan_repo_default_branch_def (ri : RepoInput) :
    (scan_repo ri).default_branch = ri.default_branch?.getD "main" := rfl

/-- A branch record carries the name of the branch it was built from. -/
theorem mk_branch_record_name (ri : RepoInput) (b : Branch) (cmp : Comparison) :
    (mk_branch_record ri b cmp).name = b.name := rfl

/-- A branch record's author field, written with `Option.map`. -/
theorem mk_branch_record_author (ri : RepoInput) (b : Branch) (cmp : Comparison) :
    (mk_branch_record ri b cmp).last_commit_author
      = cmp.commits.getLast?.map (fun lc => lc.author_name?.getD "Unknown") := rfl

/-- Every record the per-branch loop emits comes from a listed branch that
is not the default branch and whose comparison fetch succeeded. -/
theorem mem_scan_branches {ri : RepoInput} {db : String} :
    ∀ {bs : List Branch} {rec : BranchRecord}, rec ∈ scan_branches ri db bs →
      ∃ b, b ∈ bs ∧ b.name ≠ db ∧ ∃ cmp, ri.compare b.name = some cmp ∧
        rec = mk_branch_record ri b cmp := by
  intro bs
  induction bs with
  | nil => intro rec h; simp [scan_branches] at h
  | cons b rest ih =>
    intro rec h
    simp only [scan_branches] at h
    by_cases hdb : b.name = db
    · rw [if_pos hdb] at h
      obtain ⟨b₀, hmem, hrest⟩ := ih h
      exact ⟨b₀, List.mem_cons_of_mem _ hmem, hrest⟩
    · rw [if_neg hdb] at h
      cases hc : ri.compare b.name with
      | none =>
        rw [hc] at h
        obtain ⟨b₀, hmem, hrest⟩ := ih h
        exact ⟨b₀, List.mem_cons_of_mem _ hmem, hrest⟩
      | some cmp =>
        rw [hc] at h
        rcases List.mem_cons.mp h with hr | hr
        · exact ⟨b, List.mem_cons_self b rest, hdb, cmp, hc, hr⟩
        · obtain ⟨b₀, hmem, hrest⟩ := ih hr
          exact ⟨b₀, List.mem_cons_of_mem _ hmem, hrest⟩

/-- The loop emits exactly one record per listed branch that is not the
default branch and whose comparison fetch succeeded. -/
theorem scan_branches_length (ri : RepoInput) (db : String) :
    ∀ bs : List Branch,
      (scan_branches ri db bs).length
        = (bs.filter fun b => !(b.name == db) && (ri.compare b.name).isSome).length := by
  intro bs
  induction bs with
  | nil => rfl
  | cons b rest ih =>
    simp only [scan_branches]
    by_cases hdb : b.name = db
    · rw [if_pos hdb]
      simp [List.filter_cons, hdb, ih]
    · rw [if_neg hdb]
      cases hc : ri.compare b.name with
      | none => simp [List.filter_cons, hdb, hc, ih]
      | some cmp => simp [List.filter_cons, hdb, hc, ih]

/-- Inserting a record into a list with `List.orderedInsert branch_le` does
not change the subsequence of records carrying any fixed classification:
the record passes over exactly the strictly-smaller keys, which can never
share its classification. -/
theorem filter_cls_orderedInsert (a : BranchRecord) (c : String) :
    ∀ l : List BranchRecord,
      (l.orderedInsert branch_le a).filter (fun b => b.classification == c)
        = (a :: l).filter (fun b => b.classification == c)
  | [] => rfl
  | b :: l => by
    rw [List.orderedInsert]
    by_cases hab : branch_le a b
    · rw [if_pos hab]
    · rw [if_neg hab]
      have hlt : sort_order b.classification < sort_order a.classification :=
        Nat.lt_of_not_le hab
      have ih := filter_cls_orderedInsert a c l
      by_cases ha : a.classification = c
      · have hb : b.classification ≠ c := by
          intro hb
          rw [ha] at hlt
          rw [hb] at hlt
          exact Nat.lt_irrefl _ hlt
        simp [List.filter_cons, ha, hb, ih]
      · simp only [List.filter_cons, ih]
        simp [ha]

/-- Stability of the scan ordering: sorting with `branch_le` preserves the
subsequence of records of any fixed classification. -/
theorem filter_cls_insertionSort (c : String) :
    ∀ l : List BranchRecord,
      (l.insertionSort branch_le).filter (fun b => b.classification == c)
        = l.filter (fun b => b.classification == c)
  | [] => rfl
  | a :: l => by
    rw [List.insertionSort, filter_cls_orderedInsert]
    simp only [List.filter_cons, filter_cls_insertionSort c l]

/-- A comparison one commit ahead, none behind. -/
def cmp_ahead : Comparison := ⟨some 1, some 0, [], []⟩

/-- A comparison both ahead and behind. -/
def cmp_diverged : Comparison := ⟨some 1, some 1, [], []⟩

/-- A fully merged comparison with an empty commit list. -/
def cmp_nocommits : Comparison := ⟨some 0, some 0, [], []⟩

/-- The epoch timestamp: parses to 0 seconds. -/
def date_epoch : DateStr := ⟨"1970-01-01T00:00:00Z", some 0⟩

/-- C1: with `has_open_pr = true` the classification is the active-PR label,
whatever the comparison (hence also for `ahead_by = 0, behind_by = 0`) and
whatever the last-commit date and the current time. -/
theorem c1_active_pr_priority (cmp : Comparison) (lcd : Option DateStr) (now : Int) :
    classify_branch cmp lcd true now = "ACTIVE PR" := rfl

/-- C2 counterexample: a branch 30.5 days old (2635200 seconds, strictly
more than 30 * 86400), with a present and parseable date, no open PR,
`ahead_by = 1`, `behind_by = 0`, is classified AHEAD ONLY, not STALE:
`timedelta.days` floors to 30 and the code's test `30 > 30` fails. -/
theorem c2_counterexample :
    date_epoch.parsed = some 0 ∧ (2635200 : Int) - 0 > 30 * 86400 ∧
    classify_branch cmp_ahead (some date_epoch) false 2635200 = "AHEAD ONLY" :=
  ⟨rfl, by decide, by decide⟩

/-- C2 (amended): with no open PR, `ahead_by > 0`, and a present, truthy,
parseable last-commit date whose elapsed time floors to strictly more than
30 whole days (`(now - t).fdiv 86400 > 30`, i.e. at least 31 full days),
the classification is STALE. -/
theorem c2_stale_threshold (cmp : Comparison) (d : DateStr) (t now : Int)
    (hraw : d.raw ≠ "") (hparse : d.parsed = some t)
    (hahead : cmp.ahead_by?.getD 0 > 0)
    (hdays : (now - t).fdiv 86400 > 30) :
    classify_branch cmp (some d) false now = "STALE" := by
  have hsig : stale_signal (some d) (cmp.ahead_by?.getD 0) now = true := by
    simp [stale_signal, hraw, hparse, hdays, hahead]
  have hne : ¬ (cmp.ahead_by?.getD 0 = 0) := by omega
  simp [classify_branch, hne, hsig]

/-- C2 witness: a branch exactly 31 days old is STALE. -/
theorem c2_witness :
    date_epoch.raw ≠ "" ∧ date_epoch.parsed = some 0 ∧
    cmp_ahead.ahead_by?.getD 0 > 0 ∧ ((2678400 : Int) - 0).fdiv 86400 > 30 ∧
    classify_branch cmp_ahead (some date_epoch) false 2678400 = "STALE" :=
  ⟨by decide, rfl, by decide, by decide,
    c2_stale_threshold cmp_ahead date_epoch 0 2678400 (by decide) rfl (by decide)
      (by decide)⟩

/-- C3 counterexample: a branch with no open PR, `ahead_by = 1 > 0` and
`behind_by = 1 > 0` whose last unique commit is 100 days old is classified
STALE, not DIVERGED: the staleness rule fires first. -/
theorem c3_counterexample :
    cmp_diverged.ahead_by?.getD 0 > 0 ∧ cmp_diverged.behind_by?.getD 0 > 0 ∧
    classify_branch cmp_diverged (some date_epoch) false 8640000 = "STALE" ∧
    ("STALE" : String) ≠ "DIVERGED" :=
  ⟨by decide, by decide, by decide, by decide⟩

/-- C3 (amended): with no open PR, `ahead_by > 0` and `behind_by > 0`, the
classification is DIVERGED provided the staleness rule does not fire (the
date is absent, empty, unparsable, or not strictly more than 30 whole days
old); when it fires, STALE wins instead. -/
theorem c3_diverged (cmp : Comparison) (lcd : Option DateStr) (now : Int)
    (hahead : cmp.ahead_by?.getD 0 > 0) (hbehind : cmp.behind_by?.getD 0 > 0)
    (hstale : stale_signal lcd (cmp.ahead_by?.getD 0) now = false) :
    classify_branch cmp lcd false now = "DIVERGED" := by
  have hne : ¬ (cmp.ahead_by?.getD 0 = 0) := by omega
  simp [classify_branch, hne, hstale, hahead, hbehind]

/-- C3 witness: ahead and behind with no date at all is DIVERGED. -/
theorem c3_witness :
    cmp_diverged.ahead_by?.getD 0 > 0 ∧ cmp_diverged.behind_by?.getD 0 > 0 ∧
    stale_signal none (cmp_diverged.ahead_by?.getD 0) 0 = false ∧
    classify_branch cmp_diverged none false 0 = "DIVERGED" :=
  ⟨by decide, by decide, rfl,
    c3_diverged cmp_diverged none 0 (by decide) (by decide) rfl⟩

/-- C7: the classifier is a total function - on every input, malformed or
absent timestamps included, it returns one of the five labels. -/
theorem c7_total_five_labels (cmp : Comparison) (lcd : Option DateStr)
    (hp : Bool) (now : Int) :
    classify_branch cmp lcd hp now ∈
      ["ACTIVE PR", "SAFE TO DELETE", "STALE", "DIVERGED", "AHEAD ONLY"] := by
  unfold classify_branch
  dsimp only
  split
  · simp
  split
  · simp
  split
  · simp
  split
  · simp
  split
  · simp
  · simp

/-- C8 counterexample: two invocations of the classifier with identical
inputs (same comparison, same last-commit date, same PR flag) evaluated at
two different current times return different labels - the staleness rule
reads the clock. -/
theorem c8_counterexample :
    classify_branch cmp_ahead (some date_epoch) false 0 = "AHEAD ONLY" ∧
    classify_branch cmp_ahead (some date_epoch) false 8640000 = "STALE" ∧
    ("AHEAD ONLY" : String) ≠ "STALE" :=
  ⟨by decide, by decide, by decide⟩

/-- C8 (amended): the classifier is deterministic given the clock - two
invocations with identical comparison, date, PR flag and the same current
UTC time return the same label. -/
theorem c8_deterministic (cmp₁ cmp₂ : Comparison) (lcd₁ lcd₂ : Option DateStr)
    (hp₁ hp₂ : Bool) (now₁ now₂ : Int)
    (hc : cmp₁ = cmp₂) (hl : lcd₁ = lcd₂) (hp : hp₁ = hp₂) (hn : now₁ = now₂) :
    classify_branch cmp₁ lcd₁ hp₁ now₁ = classify_branch cmp₂ lcd₂ hp₂ now₂ := by
  rw [hc, hl, hp, hn]

/-- C8 witness: the determinism theorem applied at a concrete input. -/
theorem c8_witness :
    cmp_ahead = cmp_ahead ∧
    classify_branch cmp_ahead none false 0 = classify_branch cmp_ahead none false 0 :=
  ⟨rfl, c8_deterministic cmp_ahead cmp_ahead none none false false 0 0 rfl rfl rfl rfl⟩

/-- C10: a comparison missing the `ahead_by` (resp. `behind_by`) key is read
as 0; in particular a missing `ahead_by` with no open PR classifies as
SAFE TO DELETE. -/
theorem c10_missing_counts_default_zero (behind? ahead? : Option Int)
    (cs : List CommitInfo) (fs : List FileChange) (lcd : Option DateStr)
    (hp : Bool) (now : Int) :
    classify_branch ⟨none, behind?, cs, fs⟩ lcd false now = "SAFE TO DELETE" ∧
    classify_branch ⟨none, behind?, cs, fs⟩ lcd hp now
      = classify_branch ⟨some 0, behind?, cs, fs⟩ lcd hp now ∧
    classify_branch ⟨ahead?, none, cs, fs⟩ lcd hp now
      = classify_branch ⟨ahead?, some 0, cs, fs⟩ lcd hp now :=
  ⟨rfl, rfl, rfl⟩

/-- A three-branch repository whose comparison fetch fails for `f2`. -/
def ex_scan3 : RepoInput :=
  ⟨"alice", "demo", "alice/demo", some "main", some false, some "", some "", some "",
   [⟨"f1", "sha1"⟩, ⟨"f2", "sha2"⟩, ⟨"f3", "sha3"⟩], [],
   fun n => if n = "f2" then none else some cmp_ahead,
   false, 0⟩

/-- A one-branch repository whose comparison has an empty commit list. -/
def ex_empty_commits : RepoInput :=
  ⟨"alice", "demo2", "alice/demo2", some "main", some false, some "", some "", some "",
   [⟨"feature", "sha9"⟩], [],
   fun _ => some cmp_nocommits,
   false, 0⟩

/-- The single record `scan_repo` builds for `ex_empty_commits`. -/
def rec_empty : BranchRecord :=
  mk_branch_record ex_empty_commits ⟨"feature", "sha9"⟩ cmp_nocommits

/-- C4: the branches of every scan result are sorted ascending by the fixed
classification key; the sort is stable (the subsequence of records of any
fixed classification is exactly the one the loop produced, in
branch-listing order); re-sorting the result is the identity; and the key
maps the five labels to 0..4 and everything else to 5. -/
theorem c4_ordering (ri : RepoInput) :
    List.Sorted branch_le (scan_repo ri).branches
    ∧ (∀ c : String,
        (scan_repo ri).branches.filter (fun b => b.classification == c)
          = (scan_branches ri (ri.default_branch?.getD "main") ri.branches).filter
              (fun b => b.classification == c))
    ∧ (scan_repo ri).branches.insertionSort branch_le = (scan_repo ri).branches
    ∧ sort_order "DIVERGED" = 0 ∧ sort_order "AHEAD ONLY" = 1 ∧ sort_order "STALE" = 2
    ∧ sort_order "SAFE TO DELETE" = 3 ∧ sort_order "ACTIVE PR" = 4
    ∧ (∀ c : String,
        c ∉ ["DIVERGED", "AHEAD ONLY", "STALE", "SAFE TO DELETE", "ACTIVE PR"] →
          sort_order c = 5) := by
  refine ⟨?_, ?_, ?_, rfl, rfl, rfl, rfl, rfl, ?_⟩
  · rw [scan_repo_branches_def]
    exact List.sorted_insertionSort branch_le _
  · intro c
    rw [scan_repo_branches_def]
    exact filter_cls_insertionSort c _
  · rw [scan_repo_branches_def]
    exact List.Sorted.insertionSort_eq (List.sorted_insertionSort branch_le _)
  · intro c hc
    simp only [List.mem_cons, List.not_mem_nil, or_false, not_or] at hc
    obtain ⟨h1, h2, h3, h4, h5⟩ := hc
    simp [sort_order, h1, h2, h3, h4, h5]

/-- C5: a scan never fails and returns exactly one record per non-default
branch whose comparison fetch succeeded; every returned record's fetch
succeeded (no placeholder for a failed branch); and the three-branch
repository with one failed fetch yields exactly 2 records. -/
theorem c5_failed_fetch_skipped (ri : RepoInput) :
    (scan_repo ri).branches.length
      = (ri.branches.filter fun b =>
          !(b.name == ri.default_branch?.getD "main") && (ri.compare b.name).isSome).length
    ∧ (∀ rec ∈ (scan_repo ri).branches, (ri.compare rec.name).isSome = true)
    ∧ (scan_repo ex_scan3).branches.length = 2 := by
  refine ⟨?_, ?_, by decide⟩
  · rw [scan_repo_branches_def, List.length_insertionSort]
    exact scan_branches_length ri _ ri.branches
  · intro rec hrec
    rw [scan_repo_branches_def, List.mem_insertionSort] at hrec
    obtain ⟨b, -, -, cmp, hc, rfl⟩ := mem_scan_branches hrec
    rw [mk_branch_record_name, hc]
    rfl

/-- C6: the default branch never appears among a scan result's branch
records, and `branch_count` is the length of the materialized branches
sequence. -/
theorem c6_default_branch_excluded (ri : RepoInput) :
    (∀ rec ∈ (scan_repo ri).branches, rec.name ≠ (scan_repo ri).default_branch)
    ∧ (scan_repo ri).branch_count = (scan_repo ri).branches.length := by
  refine ⟨?_, rfl⟩
  intro rec hrec
  rw [scan_repo_branches_def, List.mem_insertionSort] at hrec
  obtain ⟨b, -, hne, cmp, -, rfl⟩ := mem_scan_branches hrec
  rw [mk_branch_record_name, scan_repo_default_branch_def]
  exact hne

/-- C9 counterexample: a successful comparison with an empty commit list
produces a record whose `last_commit_author` is None, not a string. -/
theorem c9_counterexample :
    ((scan_repo ex_empty_commits).branches.map fun r => r.last_commit_author)
      = [none] := by decide

/-- C9 (amended): in every branch record, `last_commit_author` is the string
`commit.author.name` of the last element of the branch's comparison commit
list, defaulting to "Unknown" when the author is absent - when that commit
list is nonempty; when it is empty, `last_commit_author` is None. -/
theorem c9_author_from_last_commit (ri : RepoInput) (rec : BranchRecord)
    (hrec : rec ∈ (scan_repo ri).branches) :
    rec.last_commit_author
      = (ri.compare rec.name).bind
          fun cmp => cmp.commits.getLast?.map fun lc => lc.author_name?.getD "Unknown" := by
  rw [scan_repo_branches_def, List.mem_insertionSort] at hrec
  obtain ⟨b, -, -, cmp, hc, rfl⟩ := mem_scan_branches hrec
  rw [mk_branch_record_name, hc, mk_branch_record_author]
  rfl

/-- C9 witness: the amended author law applied to the concrete record of
the empty-commit-list repository. -/
theorem c9_witness :
    rec_empty ∈ (scan_repo ex_empty_commits).branches ∧
    rec_empty.last_commit_author
      = (ex_empty_commits.compare rec_empty.name).bind
          fun cmp => cmp.commits.getLast?.map fun lc => lc.author_name?.getD "Unknown" :=
  ⟨by decide, c9_author_from_last_commit ex_empty_commits rec_empty (by decide)⟩

end RepoDoctor
